import Mathlib

/-!
Shallow embedding of `dbusdeviation/utilities/vcs_helper.py` (dbus-deviation).

The script drives three subcommands over a git-notes based API signature
database:

* `command_dist`    — record the content identity (git blob id) of each
  configured interface file against the latest release tag, then push;
* `command_check`   — compare two endpoints per recorded namespace by
  streaming both sides through named pipes into `dbus-interface-diff`;
* `command_install` — backfill records for every existing tag, then push.

External processes (git, the diff tool) are modelled by an environment
`GitEnv` giving the outcome of each kind of subprocess invocation, and the
git-notes store is modelled explicitly as an association list so that the
store-mutating commands (`dist`, `install`) can be reasoned about.  The
orchestrator's own sequence of process/filesystem actions inside a
comparison round is modelled as an event trace (`Ev`), in the exact order
the Python code issues them.

Python-specific primitives are embedded faithfully:
* `str.split('\n')` returns `['']` on the empty string (`pySplitLines`);
* `str.strip()` trims whitespace at both ends (`pyStrip`);
* `os.path.basename` keeps the part after the last `/` (`pyBasename`);
* `git notes add -C <id> <obj>` (no `-f`) aborts when the object already
  has a note under the chosen ref, per git-notes(1) (`gitNotesAdd`).
-/

/-- Python `str.split('\n')` over the character list: note `''` ↦ `[[]]`. -/
def splitNlChars : List Char → List (List Char)
  | [] => [[]]
  | c :: cs =>
    let r := splitNlChars cs
    if c = '\n' then [] :: r
    else
      match r with
      | [] => [[c]]
      | h :: t => (c :: h) :: t

/-- Python `s.split('\n')`. -/
def pySplitLines (s : String) : List String :=
  (splitNlChars s.data).map (fun l => String.mk l)

/-- Drop leading whitespace characters. -/
def dropWs : List Char → List Char
  | [] => []
  | c :: cs => if c.isWhitespace then dropWs cs else c :: cs

/-- Python `s.strip()`: whitespace removed from both ends. -/
def pyStrip (s : String) : String :=
  String.mk ((dropWs (dropWs s.data).reverse).reverse)

/-- `output.strip().split('\n')`, the parsing the script applies to the raw
stdout of `git for-each-ref` and `git tag`. -/
def pySplitStrip (s : String) : List String :=
  pySplitLines (pyStrip s)

/-- Helper for `pyBasename`: accumulate the current path component,
resetting at each `/`. -/
def basenameAux : List Char → List Char → List Char
  | [], acc => acc.reverse
  | c :: cs, acc => if c = '/' then basenameAux cs [] else basenameAux cs (c :: acc)

/-- Python `os.path.basename`: the part after the last `/`. -/
def pyBasename (s : String) : String :=
  String.mk (basenameAux s.data [])

/-- The local git-notes store: each entry maps a key
`(namespace basename, tag)` to the recorded content identity
(the blob object id).  A `git notes add` prepends; lookups scan for the
first matching key. -/
abbrev Store := List ((String × String) × String)

/-- Look up the note recorded for `(ns, tag)` (git `notes show`). -/
def storeGet : Store → String → String → Option String
  | [], _, _ => none
  | p :: ps, ns, tag => if p.1 = (ns, tag) then some p.2 else storeGet ps ns tag

/-- `git notes --ref refs/<root>/<ns> add -C <id> <tag>` without `-f`:
per git-notes(1) the command aborts (non-zero exit, hence
`subprocess.CalledProcessError`) when the object already has a note under
that ref; otherwise it records the note. -/
def gitNotesAdd (s : Store) (ns tag id : String) : Option Store :=
  match storeGet s ns tag with
  | some _ => none
  | none => some (((ns, tag), id) :: s)

/-- Embedding of `_set_notes_for_ref(args, tag, api_xml_basename, notes)`:
store the notes object as `api_xml_basename` against the tag revision.
Returns `none` when the underlying `git notes add` (no `-f`) fails. -/
def _set_notes_for_ref (s : Store) (tag api_xml_basename notes : String) : Option Store :=
  gitNotesAdd s api_xml_basename tag notes

/-- The parsed command-line arguments the commands consume. -/
structure Args where
  old_ref : String
  new_ref : String
  silent : Bool
  dbus_api_git_refs : String
  git_remote_origin : String
  warnings : String
  dbus_api_xml_files : List String

/-- Outcomes of the external subprocess invocations the script performs.
Each field gives the observable result of one kind of call:

* `revParseVerify r`  — exit code of `git rev-parse --verify r`
  (`_is_release`);
* `isSignedTag r`     — whether `r` actually designates a signed release
  tag (a fact about the repository that `_is_release` never consults);
* `latestRelease`     — result of `_get_latest_release` (`none` =
  `CalledProcessError`);
* `fetchOk` / `pushOk` — whether `_fetch_notes` / `_push_notes` succeed;
* `forEachRefRaw`     — raw stdout of `git for-each-ref` over the notes
  namespace root (`none` = `CalledProcessError`);
* `tagsRaw`           — raw stdout of `git tag` (`none` = error);
* `lsFiles b`         — stdout of `git ls-files */b`, the working-copy
  path used when the new endpoint is the working tree;
* `diffExit r`        — exit status of the `dbus-interface-diff` process
  of the comparison round for note ref `r`;
* `fileContents t p`  — `git rev-parse --verify --quiet t^{tag}:p`
  (`_get_contents_of_file`; `none` = the path is absent at the tag);
* `oldNotesExit` / `newNotesExit` — exit statuses of the producer
  `git notes show` subprocesses (never consulted by the control flow,
  exactly as in the source). -/
structure GitEnv where
  revParseVerify : String → Int
  isSignedTag : String → Bool
  latestRelease : Option String
  fetchOk : Bool
  pushOk : Bool
  forEachRefRaw : Option String
  tagsRaw : Option String
  lsFiles : String → String
  diffExit : String → Int
  fileContents : String → String → Option String
  oldNotesExit : String → Int
  newNotesExit : String → Int

/-- Embedding of `_is_release(args, ref)`: run
`git rev-parse --verify ref` with output discarded and test the exit
code against zero.  Note: no `^{tag}` suffix — any resolvable ref
passes, signed tag or not. -/
def _is_release (env : GitEnv) (ref : String) : Bool :=
  env.revParseVerify ref == 0

/-- Observable actions the orchestrator issues, in program order.
`mkdtemp i k` / `mkfifo i k` / `rmtree i k` concern the `k`-th ephemeral
pipe directory of comparison round `i` (`k = 0` old side, `k = 1` new
side); `openFifoWrite i k` is the orchestrator opening the write end of
that FIFO; `popenDiff i` launches the diff tool of round `i`. -/
inductive Ev where
  | fetch
  | mkdtemp (round : Nat) (k : Nat)
  | mkfifo (round : Nat) (k : Nat)
  | lsFilesCall (basename : String)
  | popenDiff (round : Nat)
  | openFifoWrite (round : Nat) (k : Nat)
  | popenOldNotes (round : Nat)
  | popenNewNotes (round : Nat)
  | waitOldNotes (round : Nat)
  | waitNewNotes (round : Nat)
  | waitDiff (round : Nat)
  | rmtree (round : Nat) (k : Nat)
  | push
  deriving DecidableEq, Repr

/-- The trace of one comparison round of `command_check`, in the exact
order the Python code issues the actions (lines 205–269 of the source):
enter both `named_pipe()` context managers (each: `mkdtemp` then
`mkfifo`), resolve the new-side filename (`git ls-files` when the new
endpoint is the working copy), `Popen` the diff tool, open the old FIFO's
write end and `Popen` the old producer, then (explicit new endpoint only)
open the new FIFO's write end and `Popen` the new producer, wait for the
producers and the diff tool, and finally leave the context managers in
reverse order (`rmtree` new dir, `rmtree` old dir). -/
def roundEvents (new_ref api_xml_basename : String) (i : Nat) : List Ev :=
  if new_ref = "" then
    [.mkdtemp i 0, .mkfifo i 0, .mkdtemp i 1, .mkfifo i 1,
     .lsFilesCall api_xml_basename,
     .popenDiff i, .openFifoWrite i 0, .popenOldNotes i,
     .waitOldNotes i, .waitDiff i, .rmtree i 1, .rmtree i 0]
  else
    [.mkdtemp i 0, .mkfifo i 0, .mkdtemp i 1, .mkfifo i 1,
     .popenDiff i, .openFifoWrite i 0, .popenOldNotes i,
     .openFifoWrite i 1, .popenNewNotes i,
     .waitOldNotes i, .waitNewNotes i, .waitDiff i, .rmtree i 1, .rmtree i 0]

/-- The `for note_ref in refs` loop of `command_check`: runs one
comparison round per enumerated note ref, keeping the first non-zero
diff exit status (`if retval == 0 and diff_proc.returncode != 0`),
and concatenates the round traces. -/
def checkRoundsAux (env : GitEnv) (new_ref : String) :
    List String → Nat → Int → Int × List Ev
  | [], _, retval => (retval, [])
  | note_ref :: refs, i, retval =>
    let rc := env.diffExit note_ref
    let retval' := if retval = 0 ∧ rc ≠ 0 then rc else retval
    let rest := checkRoundsAux env new_ref refs (i + 1) retval'
    (rest.1, roundEvents new_ref (pyBasename note_ref) i ++ rest.2)

/-- Result of a `command_check` run: the returned exit status, the trace
of orchestrator actions, and the error-stream lines written. -/
structure CheckResult where
  exit : Int
  events : List Ev
  stderr : List String
  deriving DecidableEq, Repr

/-- The endpoint validation at the top of `command_check` (source lines
161–167): a non-empty `old_ref`, then a non-empty `new_ref`, failing
`_is_release` produces the corresponding `Invalid` diagnostic. -/
def checkValidationError (env : GitEnv) (args : Args) : Option String :=
  if args.old_ref ≠ "" ∧ _is_release env args.old_ref = false then
    some ("error: Invalid --old-ref ‘" ++ args.old_ref ++ "’")
  else if args.new_ref ≠ "" ∧ _is_release env args.new_ref = false then
    some ("error: Invalid --new-ref ‘" ++ args.new_ref ++ "’")
  else none

/-- Embedding of `command_check(args)`.  Control flow of the source:
validate explicit refs (returning 1 before any other action on failure);
attempt the fetch, downgrading failure to an error line; resolve the
default old ref to the latest release (returning 1 if that fails);
enumerate the note refs via `git for-each-ref` and parse its output with
`.strip().split('\n')`; then run one comparison round per entry,
returning the first non-zero diff status.  (Status output on stdout and
the resolved old ref, which only feeds the producer command lines, are
not modelled.) -/
def command_check (env : GitEnv) (args : Args) : CheckResult :=
  match checkValidationError env args with
  | some e => { exit := 1, events := [], stderr := [e] }
  | none =>
    let fetchErrs : List String :=
      if env.fetchOk then [] else ["error: Failed to fetch latest refs."]
    if args.old_ref = "" ∧ env.latestRelease = none then
      { exit := 1, events := [.fetch],
        stderr := fetchErrs ++ ["error: Failed to find latest git tag."] }
    else
      match env.forEachRefRaw with
      | none =>
        { exit := 1, events := [.fetch],
          stderr := fetchErrs ++ ["error: Failed to get ref list."] }
      | some raw =>
        let refs := pySplitStrip raw
        let rounds := checkRoundsAux env args.new_ref refs 0 0
        { exit := rounds.1, events := .fetch :: rounds.2, stderr := fetchErrs }

/-- Result of the per-file loop of `command_dist`: the file whose
resolution or note write raised `CalledProcessError` (if any), the store
after the loop, and the stdout lines written. -/
structure DistLoopOut where
  failedFile : Option String
  store : Store
  stdout : List String
  deriving DecidableEq, Repr

/-- The `for api_xml_file in args.dbus_api_xml_files` loop of
`command_dist`: resolve each file's blob id at the latest tag and record
it with `git notes add -C` (no `-f`); the first failure stops the loop
with the offending file name, keeping the records already written. -/
def distLoop (env : GitEnv) (latest_tag : String) :
    List String → Store → DistLoopOut
  | [], s => { failedFile := none, store := s, stdout := [] }
  | f :: fs, s =>
    match env.fileContents latest_tag f with
    | none => { failedFile := some f, store := s, stdout := [] }
    | some notes =>
      match gitNotesAdd s (pyBasename f) latest_tag notes with
      | none => { failedFile := some f, store := s, stdout := [] }
      | some s' =>
        let rest := distLoop env latest_tag fs s'
        { failedFile := rest.failedFile, store := rest.store,
          stdout :=
            (latest_tag ++ ": Added note ‘" ++ notes ++ "’ for XML file ‘" ++
              pyBasename f ++ "’") :: rest.stdout }

/-- Result of `command_dist` / `command_install`: exit status, final
store, output lines, and events (`.push` marks a push attempt). -/
structure DistResult where
  exit : Int
  store : Store
  stdout : List String
  stderr : List String
  events : List Ev
  deriving DecidableEq, Repr

/-- Embedding of `command_dist(args)` run against an initial store:
resolve the latest release tag, record each configured file's identity
against it (first failure aborts with status 1, naming the file, and the
push is never reached), then push (push failure yields status 1 but the
written records stand). -/
def command_dist (env : GitEnv) (args : Args) (s0 : Store) : DistResult :=
  match env.latestRelease with
  | none =>
    { exit := 1, store := s0, stdout := [],
      stderr := ["error: Failed to find latest git tag: %s."], events := [] }
  | some latest_tag =>
    let lo := distLoop env latest_tag args.dbus_api_xml_files s0
    match lo.failedFile with
    | some f =>
      { exit := 1, store := lo.store, stdout := lo.stdout,
        stderr := ["error: Failed to store notes for API file ‘" ++ f ++
                   "’ and git tag ‘" ++ latest_tag ++ "’."],
        events := [] }
    | none =>
      if env.pushOk then
        { exit := 0, store := lo.store, stdout := lo.stdout, stderr := [],
          events := [.push] }
      else
        { exit := 1, store := lo.store, stdout := lo.stdout,
          stderr := ["error: Failed to push notes to remote ‘" ++
                     args.git_remote_origin ++ "’."],
          events := [.push] }

/-- One file of the inner loop of `command_install`: resolve the file's
blob id at the tag (`CalledProcessError` ↦ `''`), skip when empty,
otherwise attempt `_set_notes_for_ref`, silently ignoring its failure.
Returns the new store, the stdout lines, and whether anything was
written (the `outputted` flag contribution). -/
def installFile (env : GitEnv) (tag f : String) (s : Store) :
    Store × List String × Bool :=
  let notes := (env.fileContents tag f).getD ""
  if notes = "" then (s, [], false)
  else
    match _set_notes_for_ref s tag (pyBasename f) notes with
    | none => (s, [], false)
    | some s' =>
      (s', [tag ++ ": Added note ‘" ++ notes ++ "’ for XML file ‘" ++
            pyBasename f ++ "’"], true)

/-- The `for api_xml_file in args.dbus_api_xml_files` loop of
`command_install` for one tag, accumulating the `outputted` flag. -/
def installFilesLoop (env : GitEnv) (tag : String) :
    List String → Store → Store × List String × Bool
  | [], s => (s, [], false)
  | f :: fs, s =>
    let r1 := installFile env tag f s
    let r2 := installFilesLoop env tag fs r1.1
    (r2.1, r1.2.1 ++ r2.2.1, r1.2.2 || r2.2.2)

/-- One tag of `command_install`: run the file loop and append the
`"<tag>: Nothing to do"` line when nothing was written. -/
def installTag (env : GitEnv) (tag : String) (files : List String)
    (s : Store) : Store × List String :=
  let r := installFilesLoop env tag files s
  (r.1, r.2.1 ++ (if r.2.2 then [] else [tag ++ ": Nothing to do"]))

/-- The `for tag in tag_list` loop of `command_install`. -/
def installTags (env : GitEnv) (files : List String) :
    List String → Store → Store × List String
  | [], s => (s, [])
  | t :: ts, s =>
    let r1 := installTag env t files s
    let r2 := installTags env files ts r1.1
    (r2.1, r1.2 ++ r2.2)

/-- Embedding of `command_install(args)` run against an initial store:
enumerate all tags (`git tag`, parsed with `.strip().split('\n')`),
process every tag with the per-tag loop, then push once (push failure
yields status 1 but the per-tag writes stand). -/
def command_install (env : GitEnv) (args : Args) (s0 : Store) : DistResult :=
  match env.tagsRaw with
  | none =>
    { exit := 1, store := s0, stdout := [],
      stderr := ["error: Failed to get tag list."], events := [] }
  | some raw =>
    let tags := pySplitStrip raw
    let r := installTags env args.dbus_api_xml_files tags s0
    if env.pushOk then
      { exit := 0, store := r.1, stdout := r.2, stderr := [], events := [.push] }
    else
      { exit := 1, store := r.1, stdout := r.2,
        stderr := ["error: Failed to push notes to remote ‘" ++
                   args.git_remote_origin ++ "’."],
        events := [.push] }

/-- The spec's aggregation rule, written from its words: the first
non-zero status in enumeration order, zero if all are zero.  Used as the
comparison point for the aggregation implemented by `checkRoundsAux`. -/
def specFirstNonZero : List Int → Int
  | [] => 0
  | x :: xs => if x ≠ 0 then x else specFirstNonZero xs

/-- Recognizer for diff-tool launch events, used to count the comparison
rounds a run actually performed. -/
def isPopenDiff : Ev → Bool
  | .popenDiff _ => true
  | _ => false

/-! ### Concrete environment used by the witnesses -/

/-- Raw `git for-each-ref` output with three recorded namespaces. -/
def rawRefs0 : String :=
  "refs/notes/dbus/api/a.xml\nrefs/notes/dbus/api/b.xml\nrefs/notes/dbus/api/c.xml"

/-- A small concrete repository state: tags `v1`, `v2` (releases) and a
branch `mybranch` all resolve; three note namespaces are recorded; the
diff rounds for them exit with statuses 0, 3, 5 in enumeration order. -/
def env0 : GitEnv where
  revParseVerify r := if r = "v1" ∨ r = "v2" ∨ r = "mybranch" then 0 else 128
  isSignedTag r := r = "v1" ∨ r = "v2"
  latestRelease := some "v2"
  fetchOk := true
  pushOk := true
  forEachRefRaw := some rawRefs0
  tagsRaw := some "v1\nv2"
  lsFiles _ := "api/a.xml"
  diffExit r :=
    if r = "refs/notes/dbus/api/a.xml" then 0
    else if r = "refs/notes/dbus/api/b.xml" then 3
    else 5
  fileContents t f :=
    if t = "v2" ∧ (f = "api/a.xml" ∨ f = "api/b.xml") then
      some ("id-" ++ pyBasename f)
    else none
  oldNotesExit _ := 0
  newNotesExit _ := 0

/-- Concrete arguments: explicit old ref `v1`, new endpoint the working
copy, two configured interface files. -/
def args0 : Args where
  old_ref := "v1"
  new_ref := ""
  silent := false
  dbus_api_git_refs := "notes/dbus/api"
  git_remote_origin := "origin"
  warnings := "all"
  dbus_api_xml_files := ["api/a.xml", "api/b.xml"]

/-! ### Aggregation of diff exit statuses (C1, C2) -/

theorem checkRoundsAux_fst (env : GitEnv) (nr : String) :
    ∀ (rs : List String) (i : Nat) (v : Int),
      (checkRoundsAux env nr rs i v).1 =
        if v ≠ 0 then v else specFirstNonZero (rs.map env.diffExit) := by
  intro rs
  induction rs with
  | nil =>
    intro i v
    by_cases hv : v = 0 <;> simp [checkRoundsAux, specFirstNonZero, hv]
  | cons r rs ih =>
    intro i v
    simp only [checkRoundsAux, List.map_cons, specFirstNonZero]
    rw [ih]
    by_cases hv : v = 0 <;> by_cases hrc : env.diffExit r = 0 <;>
      simp [hv, hrc]

theorem countP_roundEvents (nr b : String) (i : Nat) :
    (roundEvents nr b i).countP isPopenDiff = 1 := by
  by_cases h : nr = "" <;> simp [roundEvents, h, isPopenDiff]

theorem checkRoundsAux_countP (env : GitEnv) (nr : String) :
    ∀ (rs : List String) (i : Nat) (v : Int),
      ((checkRoundsAux env nr rs i v).2).countP isPopenDiff = rs.length := by
  intro rs
  induction rs with
  | nil => intro i v; simp [checkRoundsAux]
  | cons r rs ih =>
    intro i v
    simp [checkRoundsAux, List.countP_append, countP_roundEvents, ih]
    omega

/-- Claim C1: for every check run that reaches the comparison loop, the
overall exit status returned by `command_check` is the first non-zero
diff-tool exit status across the comparison rounds in enumeration order
(zero if every round's diff exits zero), and every enumerated round is
still executed after a non-zero status is observed: the trace contains
one diff-tool launch per enumerated note ref, with no short-circuit. -/
theorem check_aggregates_first_nonzero_no_shortcircuit
    (env : GitEnv) (args : Args) (raw : String)
    (hval : checkValidationError env args = none)
    (hold : args.old_ref = "" → env.latestRelease.isSome)
    (href : env.forEachRefRaw = some raw) :
    (command_check env args).exit =
        specFirstNonZero ((pySplitStrip raw).map env.diffExit) ∧
    (command_check env args).events.countP isPopenDiff =
        (pySplitStrip raw).length := by
  have hnotboth : ¬ (args.old_ref = "" ∧ env.latestRelease = none) := by
    rintro ⟨h1, h2⟩
    have := hold h1
    rw [h2] at this
    simp at this
  rw [command_check, hval]
  simp only [hnotboth, if_false, href]
  constructor
  · simpa using checkRoundsAux_fst env args.new_ref (pySplitStrip raw) 0 0
  · simp [isPopenDiff, checkRoundsAux_countP]

/-- Witness for C1 at the concrete environment: rounds return statuses
`[0, 3, 5]` in enumeration order, the overall result is `3`, and all
three rounds execute. -/
theorem check_aggregates_first_nonzero_no_shortcircuit_witness :
    ((command_check env0 args0).exit =
        specFirstNonZero ((pySplitStrip rawRefs0).map env0.diffExit) ∧
     (command_check env0 args0).events.countP isPopenDiff =
        (pySplitStrip rawRefs0).length) ∧
    specFirstNonZero ((pySplitStrip rawRefs0).map env0.diffExit) = 3 ∧
    (pySplitStrip rawRefs0).length = 3 :=
  ⟨check_aggregates_first_nonzero_no_shortcircuit env0 args0 rawRefs0
      (by decide) (by decide) (by decide),
   by decide, by decide⟩

/-- The environment of the C2 failing input: `git for-each-ref`
enumerates no namespaces (empty output); the degenerate diff round would
exit with status 7. -/
def envC2 : GitEnv :=
  { env0 with forEachRefRaw := some "", diffExit := fun _ => 7 }

/-- Claim C2 (refuting evaluation): with no recorded namespaces the
enumeration output is empty, but because Python's `''.split('\n')` is
`['']`, `command_check` performs ONE comparison round — over the
empty-string namespace — rather than zero, and returns that degenerate
round's diff status (here 7) rather than 0. -/
theorem check_empty_enumeration_runs_one_round :
    (command_check envC2 args0).events.countP isPopenDiff = 1 ∧
    (command_check envC2 args0).exit = 7 := by
  constructor <;> decide

/-! ### Fail-fast endpoint validation (C4) -/

/-- Claim C4: a check run given an explicit old or new endpoint that the
backing store cannot resolve fails fast: exit status 1, a single error
line naming the offending ref, and an empty action trace — no fetch and
no comparison round happen. -/
theorem check_invalid_endpoint_fails_fast (env : GitEnv) (args : Args) :
    (args.old_ref ≠ "" → _is_release env args.old_ref = false →
      (command_check env args).exit = 1 ∧
      (command_check env args).stderr =
        ["error: Invalid --old-ref ‘" ++ args.old_ref ++ "’"] ∧
      (command_check env args).events = []) ∧
    (args.new_ref ≠ "" → _is_release env args.new_ref = false →
      (args.old_ref = "" ∨ _is_release env args.old_ref = true) →
      (command_check env args).exit = 1 ∧
      (command_check env args).stderr =
        ["error: Invalid --new-ref ‘" ++ args.new_ref ++ "’"] ∧
      (command_check env args).events = []) := by
  constructor
  · intro h1 h2
    rw [command_check, checkValidationError]
    simp [h1, h2]
  · intro h1 h2 hold
    rw [command_check, checkValidationError]
    have : ¬ (args.old_ref ≠ "" ∧ _is_release env args.old_ref = false) := by
      rcases hold with h | h
      · simp [h]
      · simp [h]
    simp [this, h1, h2]

/-- Witness for C4: `old_ref = "nosuch"` does not resolve in `env0`;
the run exits 1 with the naming diagnostic and performs no actions. -/
theorem check_invalid_endpoint_fails_fast_witness :
    ("nosuch" ≠ "" ∧ _is_release env0 "nosuch" = false) ∧
    ((command_check env0 { args0 with old_ref := "nosuch" }).exit = 1 ∧
     (command_check env0 { args0 with old_ref := "nosuch" }).stderr =
       ["error: Invalid --old-ref ‘nosuch’"] ∧
     (command_check env0 { args0 with old_ref := "nosuch" }).events = []) :=
  ⟨by decide,
   (check_invalid_endpoint_fails_fast env0 { args0 with old_ref := "nosuch" }).1
     (by decide) (by decide)⟩

/-! ### Best-effort fetch (C5) -/

theorem checkRoundsAux_diffExit_congr (env₁ env₂ : GitEnv) (nr : String)
    (h : env₁.diffExit = env₂.diffExit) :
    ∀ (rs : List String) (i : Nat) (v : Int),
      checkRoundsAux env₁ nr rs i v = checkRoundsAux env₂ nr rs i v := by
  intro rs
  induction rs with
  | nil => intro i v; rfl
  | cons r rs ih => intro i v; simp [checkRoundsAux, h, ih]

/-- Claim C5: a failure of the signature-database fetch preceding the
comparison is not fatal.  With identical environments except for the
fetch outcome, the failing-fetch run writes the fetch error line but
returns the same exit status and performs the same actions (the
comparison proceeds against the local records). -/
theorem check_fetch_failure_not_fatal (env : GitEnv) (args : Args)
    (hval : checkValidationError { env with fetchOk := false } args = none) :
    (command_check { env with fetchOk := false } args).exit =
      (command_check { env with fetchOk := true } args).exit ∧
    "error: Failed to fetch latest refs." ∈
      (command_check { env with fetchOk := false } args).stderr ∧
    (command_check { env with fetchOk := false } args).events =
      (command_check { env with fetchOk := true } args).events := by
  obtain ⟨rv, ist, lr, fok, pok, fer, tr, lsf, de, fc, onx, nnx⟩ := env
  have hval' : checkValidationError
      { revParseVerify := rv, isSignedTag := ist, latestRelease := lr,
        fetchOk := true, pushOk := pok, forEachRefRaw := fer, tagsRaw := tr,
        lsFiles := lsf, diffExit := de, fileContents := fc,
        oldNotesExit := onx, newNotesExit := nnx } args = none := hval
  rw [command_check, command_check, hval, hval']
  by_cases h1 : args.old_ref = "" ∧ lr = none
  · simp [h1]
  · cases fer with
    | none => simp [h1]
    | some raw =>
      have hc := checkRoundsAux_diffExit_congr
        { revParseVerify := rv, isSignedTag := ist, latestRelease := lr,
          fetchOk := false, pushOk := pok, forEachRefRaw := some raw,
          tagsRaw := tr, lsFiles := lsf, diffExit := de, fileContents := fc,
          oldNotesExit := onx, newNotesExit := nnx }
        { revParseVerify := rv, isSignedTag := ist, latestRelease := lr,
          fetchOk := true, pushOk := pok, forEachRefRaw := some raw,
          tagsRaw := tr, lsFiles := lsf, diffExit := de, fileContents := fc,
          oldNotesExit := onx, newNotesExit := nnx }
        args.new_ref rfl
      simp [h1, hc]

/-- Witness for C5 at the concrete environment: failing the fetch does
not change the exit status or the performed actions, and the error line
is reported. -/
theorem check_fetch_failure_not_fatal_witness :
    (command_check { env0 with fetchOk := false } args0).exit =
      (command_check { env0 with fetchOk := true } args0).exit ∧
    "error: Failed to fetch latest refs." ∈
      (command_check { env0 with fetchOk := false } args0).stderr ∧
    (command_check { env0 with fetchOk := false } args0).events =
      (command_check { env0 with fetchOk := true } args0).events :=
  check_fetch_failure_not_fatal env0 args0 (by decide)

/-! ### Round-trace ordering and cleanup (C8, C9) -/

/-- Claim C8: in every comparison round, the diff tool is launched
strictly before the orchestrator opens the write end of any FIFO of that
round: `popenDiff` followed later by `openFifoWrite` is an ordered
subsequence of the round's trace, for whichever FIFO write-ends the
round opens. -/
theorem round_diff_started_before_fifo_write (nr b : String) (i k : Nat)
    (h : Ev.openFifoWrite i k ∈ roundEvents nr b i) :
    List.Sublist [Ev.popenDiff i, Ev.openFifoWrite i k] (roundEvents nr b i) := by
  unfold roundEvents at h ⊢
  by_cases hnr : nr = ""
  · rw [if_pos hnr] at h ⊢
    simp at h
    subst h
    exact .cons _ (.cons _ (.cons _ (.cons _ (.cons _ (.cons₂ _
      (.cons₂ _ (List.nil_sublist _)))))))
  · rw [if_neg hnr] at h ⊢
    simp at h
    rcases h with rfl | rfl
    · exact .cons _ (.cons _ (.cons _ (.cons _ (.cons₂ _
        (.cons₂ _ (List.nil_sublist _))))))
    · exact .cons _ (.cons _ (.cons _ (.cons _ (.cons₂ _ (.cons _
        (.cons _ (.cons₂ _ (List.nil_sublist _))))))))

/-- Witness for C8: in a concrete working-copy round the old FIFO's
write end is opened, and the diff launch precedes it in the trace. -/
theorem round_diff_started_before_fifo_write_witness :
    Ev.openFifoWrite 0 0 ∈ roundEvents "" "a.xml" 0 ∧
    List.Sublist [Ev.popenDiff 0, Ev.openFifoWrite 0 0] (roundEvents "" "a.xml" 0) :=
  ⟨by decide, round_diff_started_before_fifo_write "" "a.xml" 0 0 (by decide)⟩

theorem mkdtemp_mem_roundEvents (nr b : String) (i j k : Nat)
    (h : Ev.mkdtemp i k ∈ roundEvents nr b j) : i = j ∧ (k = 0 ∨ k = 1) := by
  by_cases hnr : nr = "" <;> simp [roundEvents, hnr] at h <;>
    rcases h with ⟨rfl, rfl⟩ | ⟨rfl, rfl⟩ <;> simp

theorem rmtree_mem_roundEvents (nr b : String) (j k : Nat)
    (hk : k = 0 ∨ k = 1) : Ev.rmtree j k ∈ roundEvents nr b j := by
  by_cases hnr : nr = "" <;> rcases hk with rfl | rfl <;>
    simp [roundEvents, hnr]

theorem command_check_events_shape (env : GitEnv) (args : Args) :
    (command_check env args).events = [] ∨
    (command_check env args).events = [.fetch] ∨
    ∃ raw, env.forEachRefRaw = some raw ∧
      (command_check env args).events =
        .fetch :: (checkRoundsAux env args.new_ref (pySplitStrip raw) 0 0).2 := by
  rw [command_check]
  cases hv : checkValidationError env args with
  | some e => exact Or.inl rfl
  | none =>
    by_cases h1 : args.old_ref = "" ∧ env.latestRelease = none
    · simp [h1]
    · cases hfer : env.forEachRefRaw with
      | none => simp [h1, hfer]
      | some raw => simp [h1, hfer]

theorem checkRoundsAux_cleanup (env : GitEnv) (nr : String) (i k : Nat) :
    ∀ (rs : List String) (j : Nat) (v : Int),
      Ev.mkdtemp i k ∈ (checkRoundsAux env nr rs j v).2 →
      Ev.rmtree i k ∈ (checkRoundsAux env nr rs j v).2 := by
  intro rs
  induction rs with
  | nil => intro j v h; simp [checkRoundsAux] at h
  | cons r rs ih =>
    intro j v h
    simp only [checkRoundsAux, List.mem_append] at h ⊢
    rcases h with h | h
    · obtain ⟨rfl, hk⟩ := mkdtemp_mem_roundEvents _ _ _ _ _ h
      exact Or.inl (rmtree_mem_roundEvents _ _ _ _ hk)
    · exact Or.inr (ih _ _ h)

/-- Claim C9: every ephemeral pipe directory created during a
`command_check` run is removed by the time the run returns: any
`mkdtemp` in the trace has a matching `rmtree` for the same round and
side.  The statement quantifies over every environment, in particular
those whose producer subprocesses exit non-zero: the trace — and hence
the cleanup — does not depend on the producers' or the diff tool's exit
statuses, because the `named_pipe` context manager removes the
directory in a `finally` block. -/
theorem check_cleanup_unconditional (env : GitEnv) (args : Args) (i k : Nat)
    (h : Ev.mkdtemp i k ∈ (command_check env args).events) :
    Ev.rmtree i k ∈ (command_check env args).events := by
  rcases command_check_events_shape env args with he | he | ⟨raw, -, he⟩ <;>
    rw [he] at h ⊢
  · simp at h
  · simp at h
  · simp only [List.mem_cons] at h ⊢
    rcases h with h | h
    · cases h
    · exact Or.inr (checkRoundsAux_cleanup env args.new_ref i k _ 0 0 h)

/-- Witness for C9: in the concrete check run the first round's old-side
directory is created, and a matching removal is in the trace. -/
theorem check_cleanup_unconditional_witness :
    Ev.mkdtemp 0 0 ∈ (command_check env0 args0).events ∧
    Ev.rmtree 0 0 ∈ (command_check env0 args0).events :=
  ⟨by decide, check_cleanup_unconditional env0 args0 0 0 (by decide)⟩

/-! ### Re-recording at an existing (namespace, marker) pair (C3) -/

/-- A store already holding identity `id1` for namespace `a.xml` at
marker `v1`. -/
def storeC3 : Store := [(("a.xml", "v1"), "id1")]

/-- Claim C3 counterexample: re-recording `(a.xml, v1)` with the
different identity `id2` does NOT replace the stored record — the
non-forced `git notes add` aborts, so there is no resulting store in
which `get` returns the new identity.  The claim "re-recording
overwrites" is false on the code. -/
theorem rerecord_overwrites_counterexample :
    ¬ ∃ s', _set_notes_for_ref storeC3 "v1" "a.xml" "id2" = some s' ∧
            storeGet s' "a.xml" "v1" = some "id2" := by
  have hnone : _set_notes_for_ref storeC3 "v1" "a.xml" "id2" = none := by decide
  rintro ⟨s', hs, -⟩
  rw [hnone] at hs
  cases hs

theorem storeGet_none_not_mem (ns m : String) :
    ∀ s : Store, storeGet s ns m = none → (ns, m) ∉ List.map Prod.fst s := by
  intro s
  induction s with
  | nil => simp
  | cons p ps ih =>
    intro h
    rw [storeGet] at h
    by_cases hp : p.1 = (ns, m)
    · rw [if_pos hp] at h; cases h
    · rw [if_neg hp] at h
      simp only [List.map_cons, List.mem_cons]
      rintro (hh | hh)
      · exact hp hh.symm
      · exact ih h hh

/-- Claim C3 (amended): recording a content identity at a
(namespace, marker) pair that already has a record is REJECTED — the
non-forced `git notes add` fails — and the store is left unchanged, so a
subsequent get still returns the ORIGINAL identity.  At most one content
identity is ever recorded per pair: the invariant is maintained by
rejecting re-records rather than by overwriting, and successful adds
preserve key uniqueness. -/
theorem rerecord_rejected_store_unchanged
    (s : Store) (ns m id0 id : String) (h : storeGet s ns m = some id0) :
    _set_notes_for_ref s m ns id = none ∧
    storeGet s ns m = some id0 ∧
    (∀ (s' t : Store) (ns' m' id' : String),
      (List.map Prod.fst s').Nodup → gitNotesAdd s' ns' m' id' = some t →
      (List.map Prod.fst t).Nodup) := by
  refine ⟨by simp [_set_notes_for_ref, gitNotesAdd, h], h, ?_⟩
  intro s' t ns' m' id' hnd hadd
  rw [gitNotesAdd] at hadd
  cases hg : storeGet s' ns' m' with
  | some v => rw [hg] at hadd; cases hadd
  | none =>
    rw [hg] at hadd
    injection hadd with hadd
    subst hadd
    simp only [List.map_cons, List.nodup_cons]
    exact ⟨storeGet_none_not_mem ns' m' s' hg, hnd⟩

/-- Witness for the amended C3: in the concrete store the record exists,
and the re-record attempt fails. -/
theorem rerecord_rejected_store_unchanged_witness :
    storeGet storeC3 "a.xml" "v1" = some "id1" ∧
    _set_notes_for_ref storeC3 "v1" "a.xml" "id2" = none :=
  ⟨by decide,
   (rerecord_rejected_store_unchanged storeC3 "a.xml" "v1" "id1" "id2" (by decide)).1⟩

/-! ### Validation accepts any resolvable ref (C10) -/

/-- Claim C10: the endpoint validation used by check accepts exactly the
refs the backing store can resolve: `_is_release` succeeds iff
`git rev-parse --verify` exits 0; it never consults whether the ref
actually designates a signed release (replacing `isSignedTag` by any
predicate leaves it unchanged); and for an explicit old endpoint the
validation passes exactly when the resolve succeeds, release or not. -/
theorem validation_accepts_any_resolvable_ref
    (env : GitEnv) (args : Args) (r : String) :
    (_is_release env r = true ↔ env.revParseVerify r = 0) ∧
    (∀ b : String → Bool, _is_release { env with isSignedTag := b } r = _is_release env r) ∧
    (args.old_ref ≠ "" → args.new_ref = "" →
      (checkValidationError env args = none ↔
        env.revParseVerify args.old_ref = 0)) := by
  refine ⟨by simp [_is_release], fun b => rfl, ?_⟩
  intro h1 h2
  rw [checkValidationError]
  constructor
  · intro hnone
    by_contra hne
    have hf : _is_release env args.old_ref = false := by
      simp [_is_release, hne]
    rw [if_pos ⟨h1, hf⟩] at hnone
    cases hnone
  · intro h0
    have ht : _is_release env args.old_ref = true := by simp [_is_release, h0]
    have hc1 : ¬ (args.old_ref ≠ "" ∧ _is_release env args.old_ref = false) := by
      rintro ⟨-, hf⟩
      rw [ht] at hf
      cases hf
    have hc2 : ¬ (args.new_ref ≠ "" ∧ _is_release env args.new_ref = false) := by
      rintro ⟨hne, -⟩
      exact hne h2
    rw [if_neg hc1, if_neg hc2]

/-- Witness for C10: `mybranch` resolves in `env0` but is not a signed
release tag, and the check validation accepts it as the old endpoint. -/
theorem validation_accepts_any_resolvable_ref_witness :
    (_is_release env0 "mybranch" = true ↔ env0.revParseVerify "mybranch" = 0) ∧
    env0.isSignedTag "mybranch" = false ∧
    checkValidationError env0 { args0 with old_ref := "mybranch" } = none :=
  ⟨(validation_accepts_any_resolvable_ref env0
      { args0 with old_ref := "mybranch" } "mybranch").1,
   by decide,
   ((validation_accepts_any_resolvable_ref env0
      { args0 with old_ref := "mybranch" } "mybranch").2.2
      (by decide) (by decide)).mpr (by decide)⟩

/-! ### Dist failure semantics (C6) -/

theorem gitNotesAdd_some (s s' : Store) (ns tag id : String)
    (h : gitNotesAdd s ns tag id = some s') :
    s' = ((ns, tag), id) :: s ∧ storeGet s ns tag = none := by
  rw [gitNotesAdd] at h
  cases hg : storeGet s ns tag with
  | some v => rw [hg] at h; cases h
  | none =>
    rw [hg] at h
    injection h with h
    exact ⟨h.symm, rfl⟩

theorem storeGet_preserved_of_add (s s' : Store) (ns tag id : String)
    (h : gitNotesAdd s ns tag id = some s') (ns' tag' v : String)
    (hv : storeGet s ns' tag' = some v) : storeGet s' ns' tag' = some v := by
  obtain ⟨rfl, hnone⟩ := gitNotesAdd_some s s' ns tag id h
  rw [storeGet]
  by_cases hk : ((ns, tag) : String × String) = (ns', tag')
  · exfalso
    have h1 : ns = ns' := congrArg Prod.fst hk
    have h2 : tag = tag' := congrArg Prod.snd hk
    subst h1
    subst h2
    rw [hnone] at hv
    cases hv
  · rw [if_neg hk]
    exact hv

theorem storeGet_add_self (s s' : Store) (ns tag id : String)
    (h : gitNotesAdd s ns tag id = some s') : storeGet s' ns tag = some id := by
  obtain ⟨rfl, -⟩ := gitNotesAdd_some s s' ns tag id h
  rw [storeGet, if_pos rfl]

theorem distLoop_cons_none (env : GitEnv) (tag f : String) (fs : List String)
    (s : Store) (hfc : env.fileContents tag f = none) :
    distLoop env tag (f :: fs) s =
      { failedFile := some f, store := s, stdout := [] } := by
  rw [distLoop, hfc]

theorem distLoop_cons_addfail (env : GitEnv) (tag f : String)
    (fs : List String) (s : Store) (notes : String)
    (hfc : env.fileContents tag f = some notes)
    (hadd : gitNotesAdd s (pyBasename f) tag notes = none) :
    distLoop env tag (f :: fs) s =
      { failedFile := some f, store := s, stdout := [] } := by
  rw [distLoop, hfc]
  dsimp only
  rw [hadd]

theorem distLoop_cons_ok (env : GitEnv) (tag f : String) (fs : List String)
    (s : Store) (notes : String) (s' : Store)
    (hfc : env.fileContents tag f = some notes)
    (hadd : gitNotesAdd s (pyBasename f) tag notes = some s') :
    distLoop env tag (f :: fs) s =
      { failedFile := (distLoop env tag fs s').failedFile,
        store := (distLoop env tag fs s').store,
        stdout := (tag ++ ": Added note ‘" ++ notes ++ "’ for XML file ‘" ++
          pyBasename f ++ "’") :: (distLoop env tag fs s').stdout } := by
  rw [distLoop, hfc]
  dsimp only
  rw [hadd]

/-- When the per-file loop of `command_dist` succeeds on a list of files,
previously recorded notes are preserved and every processed file's blob
id is retrievable from the resulting store. -/
theorem distLoop_ok (env : GitEnv) (tag : String) :
    ∀ (fs : List String) (s : Store),
      (distLoop env tag fs s).failedFile = none →
      (∀ ns' t' v, storeGet s ns' t' = some v →
         storeGet (distLoop env tag fs s).store ns' t' = some v) ∧
      (∀ g ∈ fs, ∀ n, env.fileContents tag g = some n →
         storeGet (distLoop env tag fs s).store (pyBasename g) tag = some n) := by
  intro fs
  induction fs with
  | nil =>
    intro s h
    exact ⟨fun ns' t' v hv => hv, by simp⟩
  | cons f fs ih =>
    intro s h
    rcases hfc' : env.fileContents tag f with - | notes
    · rw [distLoop_cons_none env tag f fs s hfc'] at h
      simp at h
    · rcases hadd' : gitNotesAdd s (pyBasename f) tag notes with - | s'
      · rw [distLoop_cons_addfail env tag f fs s notes hfc' hadd'] at h
        simp at h
      · rw [distLoop_cons_ok env tag f fs s notes s' hfc' hadd'] at h ⊢
        dsimp only at h ⊢
        obtain ⟨ihp, ihm⟩ := ih s' h
        refine ⟨?_, ?_⟩
        · intro ns' t' v hv
          exact ihp ns' t' v
            (storeGet_preserved_of_add s s' (pyBasename f) tag notes hadd' ns' t' v hv)
        · intro g hg n hn
          rcases List.mem_cons.mp hg with rfl | hg
          · rw [hfc'] at hn
            injection hn with hn
            subst hn
            exact ihp (pyBasename g) tag notes
              (storeGet_add_self s s' (pyBasename g) tag notes hadd')
          · exact ihm g hg n hn

/-- When the per-file loop succeeds on a leading segment and the next
file then fails (absent at the tag, or its note write rejected), the
loop over the whole list reports that file and keeps the store reached
after the leading segment. -/
theorem distLoop_fails_at (env : GitEnv) (tag : String) :
    ∀ (pre : List String) (f : String) (rest : List String) (s : Store),
      (distLoop env tag pre s).failedFile = none →
      (env.fileContents tag f = none ∨
        ∃ n, env.fileContents tag f = some n ∧
          gitNotesAdd (distLoop env tag pre s).store (pyBasename f) tag n = none) →
      (distLoop env tag (pre ++ f :: rest) s).failedFile = some f ∧
      (distLoop env tag (pre ++ f :: rest) s).store =
        (distLoop env tag pre s).store := by
  intro pre
  induction pre with
  | nil =>
    intro f rest s h hf
    rw [List.nil_append]
    rcases hf with hf | ⟨n, hn, hadd⟩
    · rw [distLoop_cons_none env tag f rest s hf]
      exact ⟨rfl, rfl⟩
    · have hadd' : gitNotesAdd s (pyBasename f) tag n = none := hadd
      rw [distLoop_cons_addfail env tag f rest s n hn hadd']
      exact ⟨rfl, rfl⟩
  | cons g gs ih =>
    intro f rest s h hf
    rcases hfc' : env.fileContents tag g with - | notes
    · rw [distLoop_cons_none env tag g gs s hfc'] at h
      simp at h
    · rcases hadd' : gitNotesAdd s (pyBasename g) tag notes with - | s'
      · rw [distLoop_cons_addfail env tag g gs s notes hfc' hadd'] at h
        simp at h
      · rw [distLoop_cons_ok env tag g gs s notes s' hfc' hadd'] at h hf
        dsimp only at h hf
        have hih := ih f rest s' h hf
        rw [List.cons_append,
          distLoop_cons_ok env tag g (gs ++ f :: rest) s notes s' hfc' hadd',
          distLoop_cons_ok env tag g gs s notes s' hfc' hadd']
        dsimp only
        exact ⟨hih.1, hih.2⟩

/-- Claim C6: when some configured interface file fails content-identity
resolution or record write at the resolved latest marker, `command_dist`
aborts with exit status 1 and an error line naming the failed file, the
records already written for the earlier files of the same run remain
retrievable from the final store (no rollback), and no push is ever
attempted (no `.push` event in the trace). -/
theorem dist_failure_aborts_no_push (env : GitEnv) (args : Args) (s0 : Store)
    (tag : String) (pre : List String) (f : String) (rest : List String)
    (htag : env.latestRelease = some tag)
    (hfiles : args.dbus_api_xml_files = pre ++ f :: rest)
    (hpre : (distLoop env tag pre s0).failedFile = none)
    (hf : env.fileContents tag f = none ∨
      ∃ n, env.fileContents tag f = some n ∧
        gitNotesAdd (distLoop env tag pre s0).store (pyBasename f) tag n = none) :
    (command_dist env args s0).exit = 1 ∧
    (command_dist env args s0).stderr =
      ["error: Failed to store notes for API file ‘" ++ f ++
       "’ and git tag ‘" ++ tag ++ "’."] ∧
    (∀ g ∈ pre, ∀ n, env.fileContents tag g = some n →
      storeGet (command_dist env args s0).store (pyBasename g) tag = some n) ∧
    Ev.push ∉ (command_dist env args s0).events := by
  obtain ⟨hfail, hstore⟩ := distLoop_fails_at env tag pre f rest s0 hpre hf
  have hcd : command_dist env args s0 =
      { exit := 1,
        store := (distLoop env tag (pre ++ f :: rest) s0).store,
        stdout := (distLoop env tag (pre ++ f :: rest) s0).stdout,
        stderr := ["error: Failed to store notes for API file ‘" ++ f ++
                   "’ and git tag ‘" ++ tag ++ "’."],
        events := [] } := by
    rw [command_dist, htag]
    dsimp only
    rw [hfiles, hfail]
  rw [hcd]
  refine ⟨rfl, rfl, ?_, by simp⟩
  intro g hg n hn
  dsimp only
  rw [hstore]
  exact (distLoop_ok env tag pre s0 hpre).2 g hg n hn

/-- Arguments whose second interface file is absent at the latest tag of
`env0`. -/
def args6 : Args :=
  { args0 with dbus_api_xml_files := ["api/a.xml", "api/missing.xml"] }

/-- Witness for C6: in the concrete run the first file's record is
written and kept, the run exits 1 naming the missing file, and no push
happens. -/
theorem dist_failure_aborts_no_push_witness :
    (command_dist env0 args6 []).exit = 1 ∧
    (command_dist env0 args6 []).stderr =
      ["error: Failed to store notes for API file ‘" ++ "api/missing.xml" ++
       "’ and git tag ‘" ++ "v2" ++ "’."] ∧
    storeGet (command_dist env0 args6 []).store (pyBasename "api/a.xml") "v2" =
      some ("id-" ++ pyBasename "api/a.xml") ∧
    Ev.push ∉ (command_dist env0 args6 []).events :=
  have h := dist_failure_aborts_no_push env0 args6 [] "v2" ["api/a.xml"]
    "api/missing.xml" [] (by decide) (by decide) (by decide)
    (Or.inl (by decide))
  ⟨h.1, h.2.1,
   h.2.2.1 "api/a.xml" (by decide) ("id-" ++ pyBasename "api/a.xml") (by decide),
   h.2.2.2⟩

/-! ### Install semantics (C7) -/

theorem gitNotesAdd_none (s : Store) (ns tag id : String)
    (h : gitNotesAdd s ns tag id = none) :
    ∃ w, storeGet s ns tag = some w := by
  cases hg : storeGet s ns tag with
  | some w => exact ⟨w, rfl⟩
  | none =>
    exfalso
    simp [gitNotesAdd, hg] at h

theorem installFile_empty (env : GitEnv) (tag f : String) (s : Store)
    (h : (env.fileContents tag f).getD "" = "") :
    installFile env tag f s = (s, [], false) := by
  rw [installFile]
  rw [if_pos h]

theorem installFile_reject (env : GitEnv) (tag f : String) (s : Store)
    (h : (env.fileContents tag f).getD "" ≠ "")
    (hadd : _set_notes_for_ref s tag (pyBasename f)
      ((env.fileContents tag f).getD "") = none) :
    installFile env tag f s = (s, [], false) := by
  rw [installFile]
  rw [if_neg h, hadd]

theorem installFile_write (env : GitEnv) (tag f : String) (s s' : Store)
    (h : (env.fileContents tag f).getD "" ≠ "")
    (hadd : _set_notes_for_ref s tag (pyBasename f)
      ((env.fileContents tag f).getD "") = some s') :
    installFile env tag f s =
      (s', [tag ++ ": Added note ‘" ++ (env.fileContents tag f).getD "" ++
            "’ for XML file ‘" ++ pyBasename f ++ "’"], true) := by
  rw [installFile]
  rw [if_neg h, hadd]

/-- Exhaustive case analysis of one `command_install` file step: either
nothing happens (file empty/absent at the tag, or the note write is
rejected because a record exists), or a fresh record is added. -/
theorem installFile_cases (env : GitEnv) (tag f : String) (s : Store) :
    ((env.fileContents tag f).getD "" = "" ∧
      installFile env tag f s = (s, [], false)) ∨
    ((env.fileContents tag f).getD "" ≠ "" ∧
      (∃ w, storeGet s (pyBasename f) tag = some w) ∧
      installFile env tag f s = (s, [], false)) ∨
    (∃ notes s', (env.fileContents tag f).getD "" = notes ∧ notes ≠ "" ∧
      gitNotesAdd s (pyBasename f) tag notes = some s' ∧
      installFile env tag f s =
        (s', [tag ++ ": Added note ‘" ++ notes ++ "’ for XML file ‘" ++
              pyBasename f ++ "’"], true)) := by
  by_cases h : (env.fileContents tag f).getD "" = ""
  · exact Or.inl ⟨h, installFile_empty env tag f s h⟩
  · cases hadd : _set_notes_for_ref s tag (pyBasename f)
        ((env.fileContents tag f).getD "") with
    | none =>
      exact Or.inr (Or.inl ⟨h, gitNotesAdd_none s (pyBasename f) tag _ hadd,
        installFile_reject env tag f s h hadd⟩)
    | some s' =>
      exact Or.inr (Or.inr ⟨_, s', rfl, h, hadd,
        installFile_write env tag f s s' h hadd⟩)

theorem installFile_preserve (env : GitEnv) (tag f : String) (s : Store)
    (ns t v : String) (hv : storeGet s ns t = some v) :
    storeGet (installFile env tag f s).1 ns t = some v := by
  rcases installFile_cases env tag f s with ⟨-, hc⟩ | ⟨-, -, hc⟩ |
    ⟨notes, s', -, -, hadd, hc⟩
  · rw [hc]; exact hv
  · rw [hc]; exact hv
  · rw [hc]
    exact storeGet_preserved_of_add s s' (pyBasename f) tag notes hadd ns t v hv

theorem installFile_covers (env : GitEnv) (tag f : String) (s : Store)
    (h : (env.fileContents tag f).getD "" ≠ "") :
    ∃ v, storeGet (installFile env tag f s).1 (pyBasename f) tag = some v := by
  rcases installFile_cases env tag f s with ⟨he, -⟩ | ⟨-, ⟨w, hw⟩, hc⟩ |
    ⟨notes, s', -, -, hadd, hc⟩
  · exact absurd he h
  · exact ⟨w, by rw [hc]; exact hw⟩
  · exact ⟨notes, by
      rw [hc]
      exact storeGet_add_self s s' (pyBasename f) tag notes hadd⟩

theorem installFile_noop (env : GitEnv) (tag f : String) (s : Store)
    (h : (env.fileContents tag f).getD "" ≠ "" →
      ∃ v, storeGet s (pyBasename f) tag = some v) :
    installFile env tag f s = (s, [], false) := by
  rcases installFile_cases env tag f s with ⟨-, hc⟩ | ⟨-, -, hc⟩ |
    ⟨notes, s', hn, hne, hadd, hc⟩
  · exact hc
  · exact hc
  · exfalso
    have hne' : (env.fileContents tag f).getD "" ≠ "" := by rw [hn]; exact hne
    obtain ⟨v, hv⟩ := h hne'
    obtain ⟨-, hnone⟩ := gitNotesAdd_some s s' (pyBasename f) tag notes hadd
    rw [hnone] at hv
    cases hv

theorem installFile_false_eq (env : GitEnv) (tag f : String) (s : Store)
    (h : (installFile env tag f s).2.2 = false) :
    installFile env tag f s = (s, [], false) := by
  rcases installFile_cases env tag f s with ⟨-, hc⟩ | ⟨-, -, hc⟩ |
    ⟨notes, s', -, -, -, hc⟩
  · exact hc
  · exact hc
  · rw [hc] at h
    cases h

theorem installFile_len (env : GitEnv) (tag f : String) (s : Store) :
    s.length ≤ (installFile env tag f s).1.length := by
  rcases installFile_cases env tag f s with ⟨-, hc⟩ | ⟨-, -, hc⟩ |
    ⟨notes, s', -, -, hadd, hc⟩
  · rw [hc]
  · rw [hc]
  · obtain ⟨rfl, -⟩ := gitNotesAdd_some s s' (pyBasename f) tag notes hadd
    rw [hc]
    exact Nat.le_succ _

theorem installFile_true_len (env : GitEnv) (tag f : String) (s : Store)
    (h : (installFile env tag f s).2.2 = true) :
    s.length < (installFile env tag f s).1.length := by
  rcases installFile_cases env tag f s with ⟨-, hc⟩ | ⟨-, -, hc⟩ |
    ⟨notes, s', -, -, hadd, hc⟩
  · rw [hc] at h; cases h
  · rw [hc] at h; cases h
  · obtain ⟨rfl, -⟩ := gitNotesAdd_some s s' (pyBasename f) tag notes hadd
    rw [hc]
    exact Nat.lt_succ_self _

theorem installFilesLoop_cons (env : GitEnv) (tag f : String)
    (fs : List String) (s : Store) :
    installFilesLoop env tag (f :: fs) s =
      ((installFilesLoop env tag fs (installFile env tag f s).1).1,
       (installFile env tag f s).2.1 ++
         (installFilesLoop env tag fs (installFile env tag f s).1).2.1,
       (installFile env tag f s).2.2 ||
         (installFilesLoop env tag fs (installFile env tag f s).1).2.2) := rfl

theorem installFilesLoop_preserve (env : GitEnv) (tag : String) :
    ∀ (files : List String) (s : Store) (ns t v : String),
      storeGet s ns t = some v →
      storeGet (installFilesLoop env tag files s).1 ns t = some v := by
  intro files
  induction files with
  | nil => intro s ns t v hv; exact hv
  | cons f fs ih =>
    intro s ns t v hv
    rw [installFilesLoop_cons]
    exact ih _ ns t v (installFile_preserve env tag f s ns t v hv)

theorem installFilesLoop_covers (env : GitEnv) (tag : String) :
    ∀ (files : List String) (s : Store) (f : String), f ∈ files →
      (env.fileContents tag f).getD "" ≠ "" →
      ∃ v, storeGet (installFilesLoop env tag files s).1 (pyBasename f) tag =
        some v := by
  intro files
  induction files with
  | nil => intro s f hf; cases hf
  | cons g gs ih =>
    intro s f hf hne
    rw [installFilesLoop_cons]
    rcases List.mem_cons.mp hf with rfl | hf
    · obtain ⟨v, hv⟩ := installFile_covers env tag f s hne
      exact ⟨v, installFilesLoop_preserve env tag gs _ _ _ v hv⟩
    · exact ih _ f hf hne

theorem installFilesLoop_noop (env : GitEnv) (tag : String) :
    ∀ (files : List String) (s : Store),
      (∀ f ∈ files, (env.fileContents tag f).getD "" ≠ "" →
        ∃ v, storeGet s (pyBasename f) tag = some v) →
      installFilesLoop env tag files s = (s, [], false) := by
  intro files
  induction files with
  | nil => intro s h; rfl
  | cons f fs ih =>
    intro s h
    rw [installFilesLoop_cons,
      installFile_noop env tag f s (h f (List.mem_cons_self f fs))]
    dsimp only
    rw [ih s (fun g hg => h g (List.mem_cons_of_mem f hg))]
    rfl

theorem installFilesLoop_false_eq (env : GitEnv) (tag : String) :
    ∀ (files : List String) (s : Store),
      (installFilesLoop env tag files s).2.2 = false →
      installFilesLoop env tag files s = (s, [], false) := by
  intro files
  induction files with
  | nil => intro s h; rfl
  | cons f fs ih =>
    intro s h
    rw [installFilesLoop_cons] at h ⊢
    dsimp only at h
    rw [Bool.or_eq_false_iff] at h
    obtain ⟨h1, h2⟩ := h
    have hf := installFile_false_eq env tag f s h1
    rw [hf] at h2 ⊢
    dsimp only at h2 ⊢
    rw [ih s h2]
    rfl

theorem installFilesLoop_len (env : GitEnv) (tag : String) :
    ∀ (files : List String) (s : Store),
      s.length ≤ (installFilesLoop env tag files s).1.length := by
  intro files
  induction files with
  | nil => intro s; exact Nat.le.refl
  | cons f fs ih =>
    intro s
    rw [installFilesLoop_cons]
    exact Nat.le_trans (installFile_len env tag f s) (ih _)

theorem installFilesLoop_true_len (env : GitEnv) (tag : String) :
    ∀ (files : List String) (s : Store),
      (installFilesLoop env tag files s).2.2 = true →
      s.length < (installFilesLoop env tag files s).1.length := by
  intro files
  induction files with
  | nil => intro s h; cases h
  | cons f fs ih =>
    intro s h
    rw [installFilesLoop_cons] at h ⊢
    dsimp only at h ⊢
    simp only [Bool.or_eq_true] at h
    rcases h with h1 | h2
    · exact Nat.lt_of_lt_of_le (installFile_true_len env tag f s h1)
        (installFilesLoop_len env tag fs _)
    · exact Nat.lt_of_le_of_lt (installFile_len env tag f s) (ih _ h2)

theorem installTag_eq (env : GitEnv) (tag : String) (files : List String)
    (s : Store) :
    installTag env tag files s =
      ((installFilesLoop env tag files s).1,
       (installFilesLoop env tag files s).2.1 ++
         (if (installFilesLoop env tag files s).2.2 then []
          else [tag ++ ": Nothing to do"])) := rfl

/-- When a tag's file loop leaves the store unchanged, the tag's output
is exactly the "Nothing to do" line. -/
theorem installTag_unchanged_nothing_to_do (env : GitEnv) (tag : String)
    (files : List String) (s : Store)
    (h : (installTag env tag files s).1 = s) :
    (installTag env tag files s).2 = [tag ++ ": Nothing to do"] := by
  cases hb : (installFilesLoop env tag files s).2.2 with
  | false =>
    have he := installFilesLoop_false_eq env tag files s hb
    rw [installTag_eq, he]
    rfl
  | true =>
    exfalso
    have hlen := installFilesLoop_true_len env tag files s hb
    rw [installTag_eq] at h
    dsimp only at h
    rw [h] at hlen
    exact Nat.lt_irrefl _ hlen

theorem installTags_cons (env : GitEnv) (files : List String) (t : String)
    (ts : List String) (s : Store) :
    installTags env files (t :: ts) s =
      ((installTags env files ts (installTag env t files s).1).1,
       (installTag env t files s).2 ++
         (installTags env files ts (installTag env t files s).1).2) := rfl

theorem installTags_preserve (env : GitEnv) (files : List String) :
    ∀ (tags : List String) (s : Store) (ns t v : String),
      storeGet s ns t = some v →
      storeGet (installTags env files tags s).1 ns t = some v := by
  intro tags
  induction tags with
  | nil => intro s ns t v hv; exact hv
  | cons tg ts ih =>
    intro s ns t v hv
    rw [installTags_cons]
    exact ih _ ns t v (installFilesLoop_preserve env tg files s ns t v hv)

theorem installTags_covers (env : GitEnv) (files : List String) :
    ∀ (tags : List String) (s : Store) (t f : String),
      t ∈ tags → f ∈ files → (env.fileContents t f).getD "" ≠ "" →
      ∃ v, storeGet (installTags env files tags s).1 (pyBasename f) t =
        some v := by
  intro tags
  induction tags with
  | nil => intro s t f ht; cases ht
  | cons tg ts ih =>
    intro s t f ht hf hne
    rw [installTags_cons]
    rcases List.mem_cons.mp ht with rfl | ht
    · obtain ⟨v, hv⟩ := installFilesLoop_covers env t files s f hf hne
      exact ⟨v, installTags_preserve env files ts _ _ _ v hv⟩
    · exact ih _ t f ht hf hne

theorem installTags_noop (env : GitEnv) (files : List String) :
    ∀ (tags : List String) (s : Store),
      (∀ t ∈ tags, ∀ f ∈ files, (env.fileContents t f).getD "" ≠ "" →
        ∃ v, storeGet s (pyBasename f) t = some v) →
      installTags env files tags s =
        (s, tags.map (fun t => t ++ ": Nothing to do")) := by
  intro tags
  induction tags with
  | nil => intro s h; rfl
  | cons tg ts ih =>
    intro s h
    have hloop : installFilesLoop env tg files s = (s, [], false) :=
      installFilesLoop_noop env tg files s
        (fun f hf hne => h tg (List.mem_cons_self tg ts) f hf hne)
    rw [installTags_cons, installTag_eq, hloop]
    dsimp only
    rw [ih s (fun t ht f hf hne => h t (List.mem_cons_of_mem tg ht) f hf hne)]
    rfl

theorem command_install_run (env : GitEnv) (args : Args) (s0 : Store)
    (raw : String) (h : env.tagsRaw = some raw) :
    (command_install env args s0).store =
      (installTags env args.dbus_api_xml_files (pySplitStrip raw) s0).1 ∧
    (command_install env args s0).stdout =
      (installTags env args.dbus_api_xml_files (pySplitStrip raw) s0).2 := by
  rw [command_install, h]
  dsimp only
  split <;> exact ⟨rfl, rfl⟩

theorem installFilesLoop_skip (env : GitEnv) (tag : String) :
    ∀ (l₁ : List String) (f : String) (l₂ : List String) (s : Store),
      env.fileContents tag f = none →
      installFilesLoop env tag (l₁ ++ f :: l₂) s =
        installFilesLoop env tag (l₁ ++ l₂) s := by
  intro l₁
  induction l₁ with
  | nil =>
    intro f l₂ s hf
    rw [List.nil_append, List.nil_append, installFilesLoop_cons,
      installFile_empty env tag f s (by rw [hf]; rfl)]
    rfl
  | cons g gs ih =>
    intro f l₂ s hf
    rw [List.cons_append, List.cons_append, installFilesLoop_cons,
      installFilesLoop_cons, ih f l₂ _ hf]

/-- Claim C7: `command_install` (1) silently skips interface files
absent at a marker — removing such a file from the configured list does
not change the result; (2) prints the "Nothing to do" line (and nothing
else) for a marker whose processing leaves the store unchanged; and
(3) is idempotent: a second run over unchanged history leaves the store
exactly as the first run left it, and reports "Nothing to do" for every
enumerated marker. -/
theorem install_skip_nothing_idempotent (env : GitEnv) (args : Args)
    (s0 : Store) (raw : String) (htags : env.tagsRaw = some raw) :
    (∀ (tag : String) (s : Store) (l₁ : List String) (f : String)
        (l₂ : List String), env.fileContents tag f = none →
      installFilesLoop env tag (l₁ ++ f :: l₂) s =
        installFilesLoop env tag (l₁ ++ l₂) s) ∧
    (∀ (tag : String) (files : List String) (s : Store),
      (installTag env tag files s).1 = s →
      (installTag env tag files s).2 = [tag ++ ": Nothing to do"]) ∧
    ((command_install env args ((command_install env args s0).store)).store =
        (command_install env args s0).store ∧
     ∀ t ∈ pySplitStrip raw, (t ++ ": Nothing to do") ∈
        (command_install env args ((command_install env args s0).store)).stdout) := by
  refine ⟨fun tag s l₁ f l₂ hf => installFilesLoop_skip env tag l₁ f l₂ s hf,
    fun tag files s h => installTag_unchanged_nothing_to_do env tag files s h,
    ?_⟩
  have cov : ∀ t ∈ pySplitStrip raw, ∀ f ∈ args.dbus_api_xml_files,
      (env.fileContents t f).getD "" ≠ "" →
      ∃ v, storeGet (command_install env args s0).store (pyBasename f) t =
        some v := by
    intro t ht f hf hne
    obtain ⟨hs1, -⟩ := command_install_run env args s0 raw htags
    rw [hs1]
    exact installTags_covers env args.dbus_api_xml_files (pySplitStrip raw)
      s0 t f ht hf hne
  have hnoop := installTags_noop env args.dbus_api_xml_files (pySplitStrip raw)
    (command_install env args s0).store cov
  obtain ⟨hs2, hout2⟩ :=
    command_install_run env args (command_install env args s0).store raw htags
  constructor
  · rw [hs2, hnoop]
  · intro t ht
    rw [hout2, hnoop]
    exact List.mem_map_of_mem _ ht

/-- Witness for C7 at the concrete environment: a file absent at `v1` is
skipped without effect, a marker with nothing written reports exactly
"Nothing to do", and the second install run changes nothing and reports
"Nothing to do" for marker `v1`. -/
theorem install_skip_nothing_idempotent_witness :
    (installFilesLoop env0 "v1" (["api/a.xml"] ++ "nope.xml" :: []) [] =
      installFilesLoop env0 "v1" (["api/a.xml"] ++ []) []) ∧
    ((installTag env0 "v1" ["api/a.xml"] []).2 = ["v1" ++ ": Nothing to do"]) ∧
    ((command_install env0 args0 ((command_install env0 args0 []).store)).store =
        (command_install env0 args0 []).store ∧
     ("v1" ++ ": Nothing to do") ∈
        (command_install env0 args0 ((command_install env0 args0 []).store)).stdout) :=
  have h := install_skip_nothing_idempotent env0 args0 [] "v1\nv2" (by decide)
  ⟨h.1 "v1" [] ["api/a.xml"] "nope.xml" [] (by decide),
   h.2.1 "v1" ["api/a.xml"] [] (by decide),
   h.2.2.1, h.2.2.2 "v1" (by decide)⟩
